import Mathlib

/-!
# Verification of the OpenPBS client transport core

Shallow embedding of the connection-slot manager, the connector to the MOM
daemon, the deferred-scheduler-reply operation, the job-credential decoder and
the stage-name parser, together with proofs of the specified properties.

Sources embedded:
* `src/lib/Libifl/pbsD_defschreply.c` (`pbs_defschreply`)
* `src/lib/Libcmds/cnt2mom.c` (`pbs_connect2mom`, slot scan / registration)
* `src/lib/Libifl/dec_JobCred.c` (`decode_DIS_JobCred`)
* `src/lib/Libcmds/parse_stage.c` (`parse_stage_name`, non-Windows path)
-/

namespace PBS

/-- Modelled from the spec: PBS error codes (`pbs_error.h` is not among the
provided sources; only distinctness and identity of the named codes matter). -/
def PBSE_NONE : Int := 0

/-- Modelled from the spec: invalid-request error code (`InvalidRequest`). -/
def PBSE_IVALREQ : Int := 15004

/-- Modelled from the spec: system (allocation) error code. -/
def PBSE_SYSTEM : Int := 15010

/-- Modelled from the spec: protocol error code (`Protocol`). -/
def PBSE_PROTOCOL : Int := 15031

/-- Modelled from the spec: connection-table-exhausted error code
(`NoConnectionsAvailable`). -/
def PBSE_NOCONNECTS : Int := 15033

/-- Modelled from the spec: bad-host error code (`BadHost`). -/
def PBSE_BADHOST : Int := 15008

/-! ## Deferred scheduler reply (`pbsD_defschreply.c`)

`pbs_defschreply(c, cmd, id, err, txt, extend)` encodes a request header, the
command, the job id, the error number, a has-text flag, the optional text and
the extension, flushes, then reads the correlated reply.  The embedding makes
the outcome of each fallible external call an input (`DefEnv`) and records the
externally visible effects of the call (`DefResult`): stream writes, lock and
unlock counts, the error text attached to the slot, `pbs_errno` and the return
value. -/

/-- Outcomes of the external calls `pbs_defschreply` makes, in program order.
Each `rc*` field is the return code the corresponding DIS encode call would
return (0 = success); `strdupOk` is whether `strdup(dis_emsg[rc])` succeeds;
`flushRc` is the return of `DIS_tcp_wflush`; `chErrno` is `connection[c].ch_errno`
as observed after `PBSD_rdrpy`. -/
structure DefEnv where
  threadInitOk : Bool
  threadInitErrno : Int
  lockOk : Bool
  lockErrno : Int
  rcHdr : Nat
  rcCmd : Nat
  rcId : Nat
  rcErr : Nat
  rcHasTxt : Nat
  rcTxt : Nat
  rcExtend : Nat
  strdupOk : Bool
  flushRc : Nat
  chErrno : Int
  rdrpyErrno : Int
  unlockOk : Bool
  unlockErrno : Int
  deriving Repr, DecidableEq

/-- Externally visible effects of one `pbs_defschreply` call.
`wireWrites` counts the DIS encode operations performed on the stream,
`flushed` whether a flush was attempted, `locks`/`unlocks` the number of
per-connection lock / unlock calls, `errtxt` the `dis_emsg` index written to
`connection[c].ch_errtxt` (`none` when the field was not set to a message). -/
structure DefResult where
  ret : Int
  pbsErrno : Int
  wireWrites : Nat
  flushed : Bool
  locks : Nat
  unlocks : Nat
  errtxt : Option Nat
  deriving Repr, DecidableEq

/-- `has_txt` as computed at lines 80-81: 1 when the text is non-NULL and
non-empty, else 0. -/
def hasTxtOf : Option String → Nat
  | none => 0
  | some t => if t = "" then 0 else 1

/-- Embedding of `pbs_defschreply` (pbsD_defschreply.c, lines 70-149).
The job id and text are `Option String` (`none` = NULL pointer).  The C
condition chain assigns `rc = encode_DIS_ReqHdr(...)` but
`rc = (diswui(...) != 0)` for the following three calls (`!=` binds tighter
than `=`), so on a failure of those the recorded `dis_emsg` index is 1, not
the callee's code; the embedding reproduces this. -/
def pbs_defschreply (env : DefEnv) (id : Option String) (txt : Option String) :
    DefResult :=
  -- if ((id == NULL) || (*id == '\0')) return (pbs_errno = PBSE_IVALREQ);
  if id = none ∨ id = some "" then
    { ret := PBSE_IVALREQ, pbsErrno := PBSE_IVALREQ, wireWrites := 0,
      flushed := false, locks := 0, unlocks := 0, errtxt := none }
  else
    let hasTxt : Nat := hasTxtOf txt
    if env.threadInitOk = false then
      { ret := env.threadInitErrno, pbsErrno := env.threadInitErrno,
        wireWrites := 0, flushed := false, locks := 0, unlocks := 0,
        errtxt := none }
    else if env.lockOk = false then
      { ret := env.lockErrno, pbsErrno := env.lockErrno, wireWrites := 0,
        flushed := false, locks := 0, unlocks := 0, errtxt := none }
    else
      -- first encode block: header, cmd, id, err (short-circuit ||)
      -- writes counts how many encode calls were attempted
      let fail1 : Option (Nat × Nat) :=  -- (observed rc, writes so far)
        if env.rcHdr ≠ 0 then some (env.rcHdr, 1)
        else if env.rcCmd ≠ 0 then some (1, 2)
        else if env.rcId ≠ 0 then some (1, 3)
        else if env.rcErr ≠ 0 then some (1, 4)
        else none
      match fail1 with
      | some (rc, w) =>
          if env.strdupOk then
            { ret := PBSE_PROTOCOL, pbsErrno := PBSE_PROTOCOL, wireWrites := w,
              flushed := false, locks := 1, unlocks := 1, errtxt := some rc }
          else
            { ret := PBSE_SYSTEM, pbsErrno := PBSE_SYSTEM, wireWrites := w,
              flushed := false, locks := 1, unlocks := 1, errtxt := none }
      | none =>
          -- rc = diswsi(sock, has_txt); then optional diswst(txt);
          -- then encode_DIS_ReqExtend
          let st : Nat × Nat :=  -- (rc, writes after first block = 4)
            if env.rcHasTxt ≠ 0 then (env.rcHasTxt, 5)
            else if hasTxt = 1 then
              if env.rcTxt ≠ 0 then (env.rcTxt, 6)
              else if env.rcExtend ≠ 0 then (env.rcExtend, 7) else (0, 7)
            else
              if env.rcExtend ≠ 0 then (env.rcExtend, 6) else (0, 6)
          let rc2 := st.1
          let w2 := st.2
          if rc2 ≠ 0 then
            if env.strdupOk then
              { ret := PBSE_PROTOCOL, pbsErrno := PBSE_PROTOCOL,
                wireWrites := w2, flushed := false, locks := 1, unlocks := 1,
                errtxt := some rc2 }
            else
              { ret := PBSE_SYSTEM, pbsErrno := PBSE_SYSTEM, wireWrites := w2,
                flushed := false, locks := 1, unlocks := 1, errtxt := none }
          else if env.flushRc ≠ 0 then
            { ret := PBSE_PROTOCOL, pbsErrno := PBSE_PROTOCOL, wireWrites := w2,
              flushed := true, locks := 1, unlocks := 1, errtxt := none }
          else
            -- reply = PBSD_rdrpy(c); rc = connection[c].ch_errno;
            -- PBSD_FreeReply(reply); unlock; return rc
            if env.unlockOk then
              { ret := env.chErrno, pbsErrno := env.rdrpyErrno, wireWrites := w2,
                flushed := true, locks := 1, unlocks := 1, errtxt := none }
            else
              { ret := env.unlockErrno, pbsErrno := env.unlockErrno,
                wireWrites := w2, flushed := true, locks := 1, unlocks := 1,
                errtxt := none }

/-- The `rc` value `pbs_defschreply` observes at the end of its encode phase
(0 when every encode call succeeded).  Because of the `rc = call() != 0`
assignments, failures of `diswui(cmd)`, `diswst(id)` and `diswui(err)` are
observed as 1. -/
def defschreplyEncRc (env : DefEnv) (hasTxt : Nat) : Nat :=
  if env.rcHdr ≠ 0 then env.rcHdr
  else if env.rcCmd ≠ 0 then 1
  else if env.rcId ≠ 0 then 1
  else if env.rcErr ≠ 0 then 1
  else if env.rcHasTxt ≠ 0 then env.rcHasTxt
  else if hasTxt = 1 ∧ env.rcTxt ≠ 0 then env.rcTxt
  else env.rcExtend

/-- A `DefEnv` in which every external call succeeds. -/
def defEnvOk : DefEnv :=
  { threadInitOk := true, threadInitErrno := 0, lockOk := true, lockErrno := 0,
    rcHdr := 0, rcCmd := 0, rcId := 0, rcErr := 0, rcHasTxt := 0, rcTxt := 0,
    rcExtend := 0, strdupOk := true, flushRc := 0, chErrno := 0,
    rdrpyErrno := 0, unlockOk := true, unlockErrno := 0 }

/-- All-ok environment except that `DIS_tcp_wflush` fails. -/
def defEnvFlushFail : DefEnv := { defEnvOk with flushRc := 1 }

/-- All-ok environment except that `encode_DIS_ReqHdr` fails with code 3. -/
def defEnvHdrFail : DefEnv := { defEnvOk with rcHdr := 3 }

/-- C1: for every environment (connection handle behaviour), command, error
number, text and extension, calling `pbs_defschreply` with a NULL or empty job
id returns `PBSE_IVALREQ` before any bytes are written to the stream (zero
encode operations, no flush), without taking or leaving the per-connection
lock and without touching the slot's error text — the connection stays
usable. -/
theorem defschreply_empty_id_invalidrequest (env : DefEnv)
    (id txt : Option String) (h : id = none ∨ id = some "") :
    (pbs_defschreply env id txt).ret = PBSE_IVALREQ ∧
    (pbs_defschreply env id txt).wireWrites = 0 ∧
    (pbs_defschreply env id txt).flushed = false ∧
    (pbs_defschreply env id txt).locks = 0 ∧
    (pbs_defschreply env id txt).unlocks = 0 ∧
    (pbs_defschreply env id txt).errtxt = none := by
  simp only [pbs_defschreply, if_pos h]
  simp

/-- Witness for C1 at the concrete input `id = none`. -/
theorem defschreply_empty_id_invalidrequest_witness :
    ((none : Option String) = none ∨ (none : Option String) = some "") ∧
    ((pbs_defschreply defEnvOk none none).ret = PBSE_IVALREQ ∧
     (pbs_defschreply defEnvOk none none).wireWrites = 0 ∧
     (pbs_defschreply defEnvOk none none).flushed = false ∧
     (pbs_defschreply defEnvOk none none).locks = 0 ∧
     (pbs_defschreply defEnvOk none none).unlocks = 0 ∧
     (pbs_defschreply defEnvOk none none).errtxt = none) :=
  ⟨Or.inl rfl, defschreply_empty_id_invalidrequest defEnvOk none none (Or.inl rfl)⟩

/-- C8: once the per-connection lock has been acquired (non-empty job id,
thread context initialised, lock call succeeded), every return path of
`pbs_defschreply` — encode failure, flush failure, reply processing, success —
performs exactly one unlock of the connection. -/
theorem defschreply_lock_balanced (env : DefEnv) (id txt : Option String)
    (hid : ¬(id = none ∨ id = some "")) (hti : env.threadInitOk = true)
    (hlk : env.lockOk = true) :
    (pbs_defschreply env id txt).locks = 1 ∧
    (pbs_defschreply env id txt).unlocks = 1 := by
  simp only [pbs_defschreply, if_neg hid, hti, hlk]
  simp only [Bool.true_eq_false, if_false]
  refine ⟨?_, ?_⟩ <;> (repeat' split) <;> rfl

/-- Witness for C8 at a concrete all-ok input. -/
theorem defschreply_lock_balanced_witness :
    (pbs_defschreply defEnvOk (some "17.svr") none).locks = 1 ∧
    (pbs_defschreply defEnvOk (some "17.svr") none).unlocks = 1 :=
  defschreply_lock_balanced defEnvOk (some "17.svr") none (by decide) rfl rfl

/-- C3 counterexample: with every encode call succeeding and the stream flush
failing, `pbs_defschreply` returns `PBSE_PROTOCOL` but attaches no message to
the slot's error text — refuting the claim that every encode-or-flush failure
attaches a human-readable message. -/
theorem defschreply_flushfail_attaches_no_message :
    (pbs_defschreply defEnvFlushFail (some "42.svr") none).flushed = true ∧
    (pbs_defschreply defEnvFlushFail (some "42.svr") none).ret = PBSE_PROTOCOL ∧
    (pbs_defschreply defEnvFlushFail (some "42.svr") none).errtxt = none := by
  decide

/-- C3 amended: when the encode phase fails (observed code
`defschreplyEncRc ≠ 0`) and duplicating the message succeeds, the operation
attaches the message indexed by that observed code to the slot's error text,
unlocks, and returns `PBSE_PROTOCOL`; when the encode phase succeeds but the
flush fails, the operation unlocks and returns `PBSE_PROTOCOL` without
attaching any message. -/
theorem defschreply_encode_flush_failure (env : DefEnv) (id txt : Option String)
    (hid : ¬(id = none ∨ id = some "")) (hti : env.threadInitOk = true)
    (hlk : env.lockOk = true) (hsd : env.strdupOk = true) :
    (defschreplyEncRc env (hasTxtOf txt) ≠ 0 →
      (pbs_defschreply env id txt).errtxt =
        some (defschreplyEncRc env (hasTxtOf txt)) ∧
      (pbs_defschreply env id txt).unlocks = 1 ∧
      (pbs_defschreply env id txt).ret = PBSE_PROTOCOL) ∧
    (defschreplyEncRc env (hasTxtOf txt) = 0 → env.flushRc ≠ 0 →
      (pbs_defschreply env id txt).errtxt = none ∧
      (pbs_defschreply env id txt).unlocks = 1 ∧
      (pbs_defschreply env id txt).ret = PBSE_PROTOCOL) := by
  simp only [pbs_defschreply, defschreplyEncRc, if_neg hid, hti, hlk, hsd]
  simp only [Bool.true_eq_false, if_false, if_true]
  by_cases h1 : env.rcHdr = 0 <;>
    by_cases h2 : env.rcCmd = 0 <;>
      by_cases h3 : env.rcId = 0 <;>
        by_cases h4 : env.rcErr = 0 <;>
          simp only [h1, h2, h3, h4, ne_eq, not_true_eq_false, not_false_eq_true,
            if_true, if_false, ite_true, ite_false, not_not] <;>
    by_cases h5 : env.rcHasTxt = 0 <;>
      by_cases h6 : hasTxtOf txt = 1 <;>
        by_cases h7 : env.rcTxt = 0 <;>
          by_cases h8 : env.rcExtend = 0 <;>
            simp_all

/-- Witness for the amended C3 at a concrete header-encode failure. -/
theorem defschreply_encode_flush_failure_witness :
    (defschreplyEncRc defEnvHdrFail (hasTxtOf none) ≠ 0 →
      (pbs_defschreply defEnvHdrFail (some "1.a") none).errtxt =
        some (defschreplyEncRc defEnvHdrFail (hasTxtOf none)) ∧
      (pbs_defschreply defEnvHdrFail (some "1.a") none).unlocks = 1 ∧
      (pbs_defschreply defEnvHdrFail (some "1.a") none).ret = PBSE_PROTOCOL) ∧
    (defschreplyEncRc defEnvHdrFail (hasTxtOf none) = 0 →
      defEnvHdrFail.flushRc ≠ 0 →
      (pbs_defschreply defEnvHdrFail (some "1.a") none).errtxt = none ∧
      (pbs_defschreply defEnvHdrFail (some "1.a") none).unlocks = 1 ∧
      (pbs_defschreply defEnvHdrFail (some "1.a") none).ret = PBSE_PROTOCOL) :=
  defschreply_encode_flush_failure defEnvHdrFail (some "1.a") none
    (by decide) rfl rfl rfl

/-! ## Connector to the MOM daemon (`cnt2mom.c`)

`pbs_connect2mom` locks the connection table, scans `connection[1..NCONNECTS)`
for a free slot, resolves the host with `AF_UNSPEC` hints, picks the first
IPv4 candidate, creates a socket, connects, registers the slot and sets up the
connection context, then unlocks.  The table is modelled as the list of in-use
flags (`tbl.length = NCONNECTS`); the outcome of each external call is an
input (`MomEnv`), and the run records an event trace for the lock-scope
properties. -/

/-- Address family constants (numeric values as in the system headers). -/
def AF_UNSPEC : Nat := 0

/-- `AF_INET` (IPv4). -/
def AF_INET : Nat := 2

/-- `AF_INET6` (IPv6). -/
def AF_INET6 : Nat := 10

/-- One `addrinfo` candidate returned by `getaddrinfo`: its address family
and an abstract address value. -/
structure AddrInfo where
  family : Nat
  addr : Nat
  deriving Repr, DecidableEq

/-- Observable events of one `pbs_connect2mom` run, in execution order.
`resolve` records the `hints.ai_family` passed to `getaddrinfo` and the host
actually resolved. -/
inductive MomEvent where
  | lockTable
  | scanSlots
  | resolve (family : Nat) (host : String)
  | socketCreate
  | tcpConnect
  | bindSlot (conn : Nat)
  | unbindSlot (conn : Nat)
  | unlockTable
  deriving Repr, DecidableEq

/-- `true` for the network I/O steps of the connect attempt: address
resolution, socket creation, TCP connect. -/
def ioEvent : MomEvent → Bool
  | .resolve _ _ => true
  | .socketCreate => true
  | .tcpConnect => true
  | _ => false

/-- Outcomes of the external calls `pbs_connect2mom` makes. -/
structure MomEnv where
  threadInitOk : Bool
  loadconfOk : Bool
  lockOk : Bool
  resolved : Option (List AddrInfo)
  socketOk : Bool
  connectOk : Bool
  connectErrno : Int
  ctxOk : Bool
  ctxErrno : Int
  unlockOk : Bool
  deriving Repr, DecidableEq

/-- Result of one `pbs_connect2mom` call: the return value, the table of
in-use flags afterwards, the event trace, `pbs_errno` as set by this function
(`none` when untouched or left to a callee), and the selected address
candidate. -/
structure MomResult where
  ret : Int
  tbl : List Bool
  trace : List MomEvent
  pbsErrno : Option Int
  selected : Option AddrInfo
  deriving Repr, DecidableEq

/-- The slot-scan loop body, `for (conn=1; conn<NCONNECTS; conn++)`: first
index `≥ i` whose flag is false, over the list of flags from index `i` on. -/
def findFreeFrom : Nat → List Bool → Option Nat
  | _, [] => none
  | i, b :: rest => if b then findFreeFrom (i + 1) rest else some i

/-- The slot scan of cnt2mom.c lines 100-108: first free slot among indices
`1 .. NCONNECTS-1` (index 0 is never examined). -/
def scanFreeSlot (tbl : List Bool) : Option Nat :=
  match tbl with
  | [] => none
  | _ :: rest => findFreeFrom 1 rest

/-- Host defaulting of lines 113-116: NULL or empty means `"localhost"`. -/
def hostOf : Option String → String
  | none => "localhost"
  | some h => if h = "" then "localhost" else h

/-- Embedding of `pbs_connect2mom` (cnt2mom.c, lines 79-194). -/
def pbs_connect2mom (env : MomEnv) (momhost : Option String)
    (tbl : List Bool) : MomResult :=
  if env.threadInitOk = false then
    { ret := -1, tbl := tbl, trace := [], pbsErrno := none, selected := none }
  else if env.loadconfOk = false then
    { ret := -1, tbl := tbl, trace := [], pbsErrno := none, selected := none }
  else if env.lockOk = false then
    { ret := -1, tbl := tbl, trace := [], pbsErrno := none, selected := none }
  else
    match scanFreeSlot tbl with
    | none =>
        { ret := -1, tbl := tbl,
          trace := [.lockTable, .scanSlots, .unlockTable],
          pbsErrno := some PBSE_NOCONNECTS, selected := none }
    | some conn =>
        let host := hostOf momhost
        let pre : List MomEvent :=
          [.lockTable, .scanSlots, .resolve AF_UNSPEC host]
        match env.resolved with
        | none =>
            { ret := -1, tbl := tbl, trace := pre ++ [.unlockTable],
              pbsErrno := some PBSE_BADHOST, selected := none }
        | some cands =>
            match cands.find? (fun a => a.family == AF_INET) with
            | none =>
                { ret := -1, tbl := tbl, trace := pre ++ [.unlockTable],
                  pbsErrno := some PBSE_BADHOST, selected := none }
            | some aip =>
                if env.socketOk = false then
                  { ret := -1, tbl := tbl,
                    trace := pre ++ [.socketCreate, .unlockTable],
                    pbsErrno := some PBSE_PROTOCOL, selected := some aip }
                else if env.connectOk = false then
                  { ret := -1, tbl := tbl,
                    trace := pre ++ [.socketCreate, .tcpConnect, .unlockTable],
                    pbsErrno := some env.connectErrno, selected := some aip }
                else if env.ctxOk = false then
                  { ret := -1, tbl := (tbl.set conn true).set conn false,
                    trace := pre ++ [.socketCreate, .tcpConnect,
                      .bindSlot conn, .unbindSlot conn, .unlockTable],
                    pbsErrno := some env.ctxErrno, selected := some aip }
                else if env.unlockOk = false then
                  { ret := -1, tbl := tbl.set conn true,
                    trace := pre ++ [.socketCreate, .tcpConnect,
                      .bindSlot conn, .unlockTable],
                    pbsErrno := none, selected := some aip }
                else
                  { ret := (conn : Int), tbl := tbl.set conn true,
                    trace := pre ++ [.socketCreate, .tcpConnect,
                      .bindSlot conn, .unlockTable],
                    pbsErrno := none, selected := some aip }

/-- Number of free slots in the table. -/
def freeSlots (tbl : List Bool) : Nat := tbl.count false

/-- A `MomEnv` in which every external call succeeds and resolution returns a
single IPv4 candidate. -/
def momEnvOk : MomEnv :=
  { threadInitOk := true, loadconfOk := true, lockOk := true,
    resolved := some [{ family := AF_INET, addr := 7 }], socketOk := true,
    connectOk := true, connectErrno := 0, ctxOk := true, ctxErrno := 0,
    unlockOk := true }

/-- All-ok environment except that the TCP connect fails with `ECONNREFUSED`. -/
def momEnvConnFail : MomEnv := { momEnvOk with connectOk := false, connectErrno := 111 }

lemma findFreeFrom_some {l : List Bool} {i j : Nat}
    (h : findFreeFrom i l = some j) :
    i ≤ j ∧ j - i < l.length ∧ l.getD (j - i) true = false ∧
      ∀ k, k < j - i → l.getD k true = true := by
  induction l generalizing i with
  | nil => simp [findFreeFrom] at h
  | cons b rest ih =>
    by_cases hb : b = true
    · rw [findFreeFrom, if_pos hb] at h
      obtain ⟨h1, h2, h3, h4⟩ := ih h
      have hij : i ≤ j := by omega
      have hji : j - i = (j - (i + 1)) + 1 := by omega
      refine ⟨hij, by simp; omega, ?_, ?_⟩
      · rw [hji, List.getD_cons_succ]; exact h3
      · intro k hk
        match k with
        | 0 => simpa using hb
        | k' + 1 =>
          rw [List.getD_cons_succ]
          exact h4 k' (by omega)
    · rw [findFreeFrom, if_neg hb] at h
      obtain rfl : i = j := by simpa using h
      refine ⟨le_refl i, by simp, ?_, by omega⟩
      simpa using hb

lemma scanFreeSlot_some {tbl : List Bool} {conn : Nat}
    (h : scanFreeSlot tbl = some conn) :
    1 ≤ conn ∧ conn < tbl.length ∧ tbl.getD conn true = false ∧
      ∀ j, 1 ≤ j → j < conn → tbl.getD j true = true := by
  match tbl with
  | [] => simp [scanFreeSlot] at h
  | t0 :: rest =>
    rw [scanFreeSlot] at h
    obtain ⟨h1, h2, h3, h4⟩ := findFreeFrom_some h
    refine ⟨h1, by simp; omega, ?_, ?_⟩
    · have hc : conn = (conn - 1) + 1 := by omega
      rw [hc, List.getD_cons_succ]
      simpa using h3
    · intro j hj1 hj2
      have hc : j = (j - 1) + 1 := by omega
      rw [hc, List.getD_cons_succ]
      exact h4 (j - 1) (by omega)

lemma set_false_of_getD_false (tbl : List Bool) (n : Nat)
    (h : tbl.getD n true = false) : tbl.set n false = tbl := by
  induction tbl generalizing n with
  | nil => rfl
  | cons b rest ih =>
    match n with
    | 0 => simp at h; simp [h]
    | n' + 1 =>
      rw [List.getD_cons_succ] at h
      have hs : (b :: rest).set (n' + 1) false = b :: rest.set n' false := rfl
      rw [hs, ih n' h]

/-- C2: whenever `pbs_connect2mom` fails after a free slot has been selected
but before it is fully bound — resolution failure, no IPv4 candidate, socket
creation failure, TCP connect failure, or connection-context setup failure —
the call returns -1 and the number of free slots in the table is unchanged:
no slot is left marked in use. -/
theorem cnt2mom_partial_failure_no_slot_leak (env : MomEnv)
    (momhost : Option String) (tbl : List Bool)
    (h1 : env.threadInitOk = true) (h2 : env.loadconfOk = true)
    (h3 : env.lockOk = true) (hscan : (scanFreeSlot tbl).isSome)
    (hfail : env.resolved = none ∨
      (∃ l, env.resolved = some l ∧
        l.find? (fun a => a.family == AF_INET) = none) ∨
      env.socketOk = false ∨ env.connectOk = false ∨ env.ctxOk = false) :
    (pbs_connect2mom env momhost tbl).ret = -1 ∧
    freeSlots (pbs_connect2mom env momhost tbl).tbl = freeSlots tbl := by
  obtain ⟨conn, hconn⟩ := Option.isSome_iff_exists.mp hscan
  have hfree := (scanFreeSlot_some hconn).2.2.1
  have hset : (tbl.set conn true).set conn false = tbl := by
    rw [List.set_set, set_false_of_getD_false tbl conn hfree]
  simp only [pbs_connect2mom, h1, h2, h3, Bool.true_eq_false, if_false, hconn]
  rcases hfail with hr | ⟨l, hl, hfind⟩ | hs | hc | hx
  · simp [hr]
  · simp [hl, hfind]
  · cases henv : env.resolved with
    | none => simp
    | some l =>
      cases hfind : l.find? (fun a => a.family == AF_INET) with
      | none => simp [hfind]
      | some aip => simp [hfind, hs, hset]
  · cases henv : env.resolved with
    | none => simp
    | some l =>
      cases hfind : l.find? (fun a => a.family == AF_INET) with
      | none => simp [hfind]
      | some aip =>
        by_cases hs : env.socketOk = false
        · simp [hfind, hs]
        · simp at hs; simp [hfind, hs, hc, hset]
  · cases henv : env.resolved with
    | none => simp
    | some l =>
      cases hfind : l.find? (fun a => a.family == AF_INET) with
      | none => simp [hfind]
      | some aip =>
        by_cases hs : env.socketOk = false
        · simp [hfind, hs]
        · by_cases hc : env.connectOk = false
          · simp at hs; simp [hfind, hs, hc]
          · simp at hs hc; simp [hfind, hs, hc, hx, hset]

/-- Witness for C2 at a concrete TCP-connect failure on a two-slot table. -/
theorem cnt2mom_partial_failure_no_slot_leak_witness :
    (pbs_connect2mom momEnvConnFail (some "mom1") [false, false]).ret = -1 ∧
    freeSlots (pbs_connect2mom momEnvConnFail (some "mom1") [false, false]).tbl =
      freeSlots [false, false] :=
  cnt2mom_partial_failure_no_slot_leak momEnvConnFail (some "mom1")
    [false, false] rfl rfl rfl (by decide)
    (Or.inr (Or.inr (Or.inr (Or.inl rfl))))

/-- `true` when some network I/O event of the trace happens between a
`lockTable` and the following `unlockTable`, i.e. while the table-wide lock is
held. -/
def ioUnderLockAux : Bool → List MomEvent → Bool
  | _, [] => false
  | _, .lockTable :: rest => ioUnderLockAux true rest
  | _, .unlockTable :: rest => ioUnderLockAux false rest
  | locked, e :: rest => (locked && ioEvent e) || ioUnderLockAux locked rest

/-- Whether the trace performs network I/O while holding the table lock. -/
def ioUnderLock (tr : List MomEvent) : Bool := ioUnderLockAux false tr

lemma io_between {mid : List MomEvent} {e : MomEvent} (hio : ioEvent e = true)
    (hmem : e ∈ MomEvent.lockTable :: (mid ++ [MomEvent.unlockTable])) :
    e ∈ mid := by
  rcases List.mem_cons.mp hmem with h | h
  · subst h; simp [ioEvent] at hio
  · rcases List.mem_append.mp h with h | h
    · exact h
    · rw [List.mem_singleton] at h; subst h; simp [ioEvent] at hio

/-- C4 counterexample: in an ordinary successful run of `pbs_connect2mom`
(free slot, resolvable host with an IPv4 candidate, all calls succeeding),
the address resolution, socket creation and TCP connect all happen while the
table-wide connection-table lock is held — refuting the claim that the lock
is never held across network I/O. -/
theorem cnt2mom_io_performed_under_lock :
    ioUnderLock (pbs_connect2mom momEnvOk (some "mom1") [false, false]).trace
      = true ∧
    (pbs_connect2mom momEnvOk (some "mom1") [false, false]).ret = 1 := by
  decide

/-- C4 amended: whenever `pbs_connect2mom` reaches the table lock, the lock is
acquired before the slot scan and released only at return: the trace is
`lockTable :: mid ++ [unlockTable]` with no further lock or unlock inside, so
every network I/O operation the call performs (address resolution, socket
creation, TCP connect) happens while the table-wide lock is held. -/
theorem cnt2mom_lock_spans_whole_call (env : MomEnv)
    (momhost : Option String) (tbl : List Bool)
    (h1 : env.threadInitOk = true) (h2 : env.loadconfOk = true)
    (h3 : env.lockOk = true) :
    ∃ mid, (pbs_connect2mom env momhost tbl).trace =
        MomEvent.lockTable :: (mid ++ [MomEvent.unlockTable]) ∧
      MomEvent.lockTable ∉ mid ∧ MomEvent.unlockTable ∉ mid ∧
      ∀ e ∈ (pbs_connect2mom env momhost tbl).trace, ioEvent e = true →
        e ∈ mid := by
  simp only [pbs_connect2mom, h1, h2, h3, Bool.true_eq_false, if_false]
  cases hscan : scanFreeSlot tbl with
  | none =>
      exact ⟨[.scanSlots], rfl, by simp, by simp,
        fun e he hio => io_between hio he⟩
  | some conn =>
      cases henv : env.resolved with
      | none =>
          exact ⟨[.scanSlots, .resolve AF_UNSPEC (hostOf momhost)], rfl,
            by simp, by simp, fun e he hio => io_between hio he⟩
      | some l =>
          cases hfind : l.find? (fun a => a.family == AF_INET) with
          | none =>
              simp only [hfind]
              exact ⟨[.scanSlots, .resolve AF_UNSPEC (hostOf momhost)], rfl,
                by simp, by simp, fun e he hio => io_between hio he⟩
          | some aip =>
              simp only [hfind]
              by_cases hs : env.socketOk = false
              · simp only [hs, if_true]
                exact ⟨[.scanSlots, .resolve AF_UNSPEC (hostOf momhost),
                  .socketCreate], rfl, by simp, by simp,
                  fun e he hio => io_between hio he⟩
              · simp only [hs, if_false]
                by_cases hc : env.connectOk = false
                · simp only [hc, if_true]
                  exact ⟨[.scanSlots, .resolve AF_UNSPEC (hostOf momhost),
                    .socketCreate, .tcpConnect], rfl, by simp, by simp,
                    fun e he hio => io_between hio he⟩
                · simp only [hc, if_false]
                  by_cases hx : env.ctxOk = false
                  · simp only [hx, if_true]
                    exact ⟨[.scanSlots, .resolve AF_UNSPEC (hostOf momhost),
                      .socketCreate, .tcpConnect, .bindSlot conn,
                      .unbindSlot conn], rfl, by simp, by simp,
                      fun e he hio => io_between hio he⟩
                  · simp only [hx, if_false]
                    by_cases hu : env.unlockOk = false
                    · simp only [hu, if_true]
                      exact ⟨[.scanSlots, .resolve AF_UNSPEC (hostOf momhost),
                        .socketCreate, .tcpConnect, .bindSlot conn], rfl,
                        by simp, by simp, fun e he hio => io_between hio he⟩
                    · simp only [hu, if_false]
                      exact ⟨[.scanSlots, .resolve AF_UNSPEC (hostOf momhost),
                        .socketCreate, .tcpConnect, .bindSlot conn], rfl,
                        by simp, by simp, fun e he hio => io_between hio he⟩

/-- Witness for the amended C4 at a concrete successful run. -/
theorem cnt2mom_lock_spans_whole_call_witness :
    ∃ mid, (pbs_connect2mom momEnvOk (some "mom1") [false, false]).trace =
        MomEvent.lockTable :: (mid ++ [MomEvent.unlockTable]) ∧
      MomEvent.lockTable ∉ mid ∧ MomEvent.unlockTable ∉ mid ∧
      ∀ e ∈ (pbs_connect2mom momEnvOk (some "mom1") [false, false]).trace,
        ioEvent e = true → e ∈ mid :=
  cnt2mom_lock_spans_whole_call momEnvOk (some "mom1") [false, false]
    rfl rfl rfl

/-- C6: when `pbs_connect2mom` reaches the resolution step (context, config
and lock succeed and a free slot exists), it resolves the — possibly
defaulted — host with unspecified address family (`AF_UNSPEC`, requesting
both IPv4 and IPv6 candidates); if resolution fails or no IPv4 candidate
exists it returns -1 with `pbs_errno = PBSE_BADHOST`; otherwise it selects
exactly the first candidate whose family is `AF_INET`. -/
theorem cnt2mom_resolution_policy (env : MomEnv) (momhost : Option String)
    (tbl : List Bool) (h1 : env.threadInitOk = true)
    (h2 : env.loadconfOk = true) (h3 : env.lockOk = true)
    (hscan : (scanFreeSlot tbl).isSome) :
    MomEvent.resolve AF_UNSPEC (hostOf momhost) ∈
      (pbs_connect2mom env momhost tbl).trace ∧
    (env.resolved = none →
      (pbs_connect2mom env momhost tbl).ret = -1 ∧
      (pbs_connect2mom env momhost tbl).pbsErrno = some PBSE_BADHOST) ∧
    (∀ l, env.resolved = some l →
      l.find? (fun a => a.family == AF_INET) = none →
      (pbs_connect2mom env momhost tbl).ret = -1 ∧
      (pbs_connect2mom env momhost tbl).pbsErrno = some PBSE_BADHOST) ∧
    (∀ l a, env.resolved = some l →
      l.find? (fun a => a.family == AF_INET) = some a →
      (pbs_connect2mom env momhost tbl).selected = some a) := by
  obtain ⟨conn, hconn⟩ := Option.isSome_iff_exists.mp hscan
  simp only [pbs_connect2mom, h1, h2, h3, Bool.true_eq_false, if_false, hconn]
  refine ⟨?_, ?_, ?_, ?_⟩
  · cases henv : env.resolved with
    | none => simp
    | some l =>
        cases hfind : l.find? (fun a => a.family == AF_INET) with
        | none => simp [hfind]
        | some aip =>
            simp only [hfind]
            repeat' split
            all_goals simp
  · intro hr
    simp [hr]
  · intro l hl hfind
    simp [hl, hfind]
  · intro l a hl hfind
    simp only [hl, hfind]
    repeat' split
    all_goals simp

/-- Witness for C6 at a concrete resolvable host. -/
theorem cnt2mom_resolution_policy_witness :
    MomEvent.resolve AF_UNSPEC (hostOf (some "mom1")) ∈
      (pbs_connect2mom momEnvOk (some "mom1") [false, false]).trace ∧
    (momEnvOk.resolved = none →
      (pbs_connect2mom momEnvOk (some "mom1") [false, false]).ret = -1 ∧
      (pbs_connect2mom momEnvOk (some "mom1") [false, false]).pbsErrno =
        some PBSE_BADHOST) ∧
    (∀ l, momEnvOk.resolved = some l →
      l.find? (fun a => a.family == AF_INET) = none →
      (pbs_connect2mom momEnvOk (some "mom1") [false, false]).ret = -1 ∧
      (pbs_connect2mom momEnvOk (some "mom1") [false, false]).pbsErrno =
        some PBSE_BADHOST) ∧
    (∀ l a, momEnvOk.resolved = some l →
      l.find? (fun a => a.family == AF_INET) = some a →
      (pbs_connect2mom momEnvOk (some "mom1") [false, false]).selected =
        some a) :=
  cnt2mom_resolution_policy momEnvOk (some "mom1") [false, false]
    rfl rfl rfl (by decide)

/-! ## Slot acquisition and release (connection-table accounting) -/

/-- Slot acquisition: the scan of cnt2mom.c lines 100-108 (first free index
among `1 .. NCONNECTS-1`) combined with the in-use registration of line 174,
as one table operation; `none` is the `PBSE_NOCONNECTS` exhaustion case. -/
def acquire_slot (tbl : List Bool) : Option (Nat × List Bool) :=
  match scanFreeSlot tbl with
  | none => none
  | some i => some (i, tbl.set i true)

/-- Releasing a slot back to the free pool (`ch_inuse = 0`). -/
def release_slot (tbl : List Bool) (i : Nat) : List Bool := tbl.set i false

/-- `n` successive slot acquisitions with no releases, keeping only the table. -/
def seqAcquire : Nat → List Bool → Option (List Bool)
  | 0, tbl => some tbl
  | n + 1, tbl =>
      (seqAcquire n tbl).bind (fun t => (acquire_slot t).map Prod.snd)

lemma findFreeFrom_replicate (i n m : Nat) :
    findFreeFrom i (List.replicate n true ++ List.replicate m false) =
      if m = 0 then none else some (i + n) := by
  induction n generalizing i with
  | zero =>
      cases m with
      | zero => simp [findFreeFrom]
      | succ k => simp [List.replicate_succ, findFreeFrom]
  | succ k ih =>
      rw [List.replicate_succ, List.cons_append, findFreeFrom, if_pos rfl, ih]
      cases m with
      | zero => rfl
      | succ j =>
          simp only [Nat.succ_ne_zero, if_false]
          congr 1
          omega

lemma set_middle_replicate (n m : Nat) :
    (List.replicate n true ++ false :: List.replicate m false).set n true =
      List.replicate (n + 1) true ++ List.replicate m false := by
  induction n with
  | zero => simp
  | succ k ih =>
      rw [List.replicate_succ, List.cons_append]
      have hs : (true :: (List.replicate k true ++ false ::
          List.replicate m false)).set (k + 1) true =
          true :: (List.replicate k true ++ false ::
            List.replicate m false).set k true := rfl
      rw [hs, ih]
      simp [List.replicate_succ]

lemma seqAcquire_replicate (cap : Nat) (hcap : 1 ≤ cap) (n : Nat) :
    seqAcquire n (List.replicate cap false) =
      if n + 1 ≤ cap then
        some (false :: (List.replicate n true ++
          List.replicate (cap - 1 - n) false))
      else none := by
  obtain ⟨c, rfl⟩ : ∃ c, cap = c + 1 := ⟨cap - 1, by omega⟩
  induction n with
  | zero =>
      rw [seqAcquire, if_pos (by omega)]
      simp [List.replicate_succ]
  | succ k ih =>
      rw [seqAcquire, ih]
      by_cases hk : k + 1 ≤ c + 1
      · rw [if_pos hk]
        rw [Option.some_bind]
        have hsub : c + 1 - 1 - k = c - k := by omega
        rw [hsub]
        rw [acquire_slot, scanFreeSlot, findFreeFrom_replicate]
        by_cases hck : c - k = 0
        · rw [if_pos hck]
          rw [if_neg (by omega)]
          rfl
        · rw [if_neg hck]
          obtain ⟨j, hj⟩ : ∃ j, c - k = j + 1 := ⟨c - k - 1, by omega⟩
          rw [if_pos (by omega)]
          rw [hj, List.replicate_succ]
          have h1k : 1 + k = k + 1 := by omega
          have hset : (false :: (List.replicate k true ++ false ::
              List.replicate j false)).set (1 + k) true =
              false :: (List.replicate k true ++ false ::
                List.replicate j false).set k true := by
            rw [h1k]
            rfl
          simp only [Option.map_some, Option.some.injEq]
          rw [hset, set_middle_replicate]
          have hj2 : c + 1 - 1 - (k + 1) = j := by omega
          rw [hj2]
          rfl
      · rw [if_neg hk, if_neg (by omega)]
        rfl

lemma count_false_release (tbl : List Bool) (i : Nat)
    (h : tbl.getD i true = true) (hi : i < tbl.length) :
    (release_slot tbl i).count false = tbl.count false + 1 := by
  induction tbl generalizing i with
  | nil => simp at hi
  | cons b rest ih =>
      match i with
      | 0 =>
          have hb : b = true := by simpa using h
          subst hb
          simp [release_slot, List.count_cons]
      | i' + 1 =>
          rw [List.getD_cons_succ] at h
          have hi' : i' < rest.length := by simpa using hi
          have hrec := ih i' h hi'
          rw [release_slot] at hrec ⊢
          have hset : (b :: rest).set (i' + 1) false =
              b :: rest.set i' false := rfl
          rw [hset, List.count_cons, List.count_cons, hrec]
          omega

/-- C5 counterexample: on a two-slot table with both slots free, acquisition
returns slot 1 — not slot 0, the first slot whose in-use flag is false — and
after a single successful acquisition (`N = 1`, configured capacity
`NCONNECTS = 2`) the next acquisition already fails even though one free slot
remains, refuting that the `(N+1)`-th acquisition fails iff `N` equals the
configured capacity. -/
theorem acquire_slot_skips_zero_and_exhausts_early :
    acquire_slot [false, false] = some (1, [false, true]) ∧
    acquire_slot [false, true] = none ∧
    freeSlots [false, true] = 1 := by
  decide

/-- C5 amended: slot acquisition scans indices `1 .. NCONNECTS-1` in order and
returns the first index `≥ 1` whose in-use flag is false (index 0 is never
considered); starting from an all-free table of capacity `NCONNECTS = cap`,
after `N` successful acquisitions with no releases the `(N+1)`-th acquisition
fails iff `N = cap - 1`; an exhausted table makes `pbs_connect2mom` fail with
`PBSE_NOCONNECTS`; and releasing an in-use slot restores exactly one free
slot. -/
theorem acquire_slot_accounting :
    (∀ tbl i tbl', acquire_slot tbl = some (i, tbl') →
      1 ≤ i ∧ i < tbl.length ∧ tbl.getD i true = false ∧
      (∀ j, 1 ≤ j → j < i → tbl.getD j true = true) ∧
      tbl' = tbl.set i true) ∧
    (∀ cap n, 1 ≤ cap →
      (((seqAcquire n (List.replicate cap false)).isSome ∧
        seqAcquire (n + 1) (List.replicate cap false) = none) ↔
        n = cap - 1)) ∧
    (∀ env momhost tbl, env.threadInitOk = true → env.loadconfOk = true →
      env.lockOk = true → acquire_slot tbl = none →
      (pbs_connect2mom env momhost tbl).ret = -1 ∧
      (pbs_connect2mom env momhost tbl).pbsErrno = some PBSE_NOCONNECTS) ∧
    (∀ tbl i, tbl.getD i true = true → i < tbl.length →
      (release_slot tbl i).count false = tbl.count false + 1) := by
  refine ⟨?_, ?_, ?_, ?_⟩
  · intro tbl i tbl' h
    rw [acquire_slot] at h
    cases hscan : scanFreeSlot tbl with
    | none => rw [hscan] at h; exact absurd h (by simp)
    | some k =>
        rw [hscan] at h
        obtain ⟨rfl, rfl⟩ : k = i ∧ tbl.set k true = tbl' := by
          constructor <;> [exact (Prod.mk.injEq _ _ _ _ ▸
            (Option.some.injEq _ _ ▸ h : (k, tbl.set k true) = (i, tbl'))).1;
            exact (Prod.mk.injEq _ _ _ _ ▸
            (Option.some.injEq _ _ ▸ h : (k, tbl.set k true) = (i, tbl'))).2]
        obtain ⟨h1, h2, h3, h4⟩ := scanFreeSlot_some hscan
        exact ⟨h1, h2, h3, h4, rfl⟩
  · intro cap n hcap
    rw [seqAcquire_replicate cap hcap n, seqAcquire_replicate cap hcap (n + 1)]
    by_cases h1 : n + 1 ≤ cap
    · rw [if_pos h1]
      by_cases h2 : n + 2 ≤ cap
      · rw [if_pos h2]
        simp only [Option.isSome_some]
        constructor
        · rintro ⟨-, h⟩; exact absurd h (by simp)
        · intro h; omega
      · rw [if_neg h2]
        simp only [Option.isSome_some]
        constructor
        · intro; omega
        · intro; exact ⟨by simp, by simp⟩
    · rw [if_neg h1, if_neg (by omega)]
      simp only [Option.isSome_none]
      constructor
      · rintro ⟨h, -⟩; exact absurd h (by simp)
      · intro; omega
  · intro env momhost tbl h1 h2 h3 hnone
    have hscan : scanFreeSlot tbl = none := by
      rw [acquire_slot] at hnone
      cases hs : scanFreeSlot tbl with
      | none => rfl
      | some k => rw [hs] at hnone; exact absurd hnone (by simp)
    simp [pbs_connect2mom, h1, h2, h3, hscan]
  · exact count_false_release

/-- Witness for the amended C5: concrete instances of each conjunct at a
two-slot table. -/
theorem acquire_slot_accounting_witness :
    (1 ≤ 1 ∧ 1 < ([false, false] : List Bool).length ∧
      ([false, false] : List Bool).getD 1 true = false ∧
      (∀ j, 1 ≤ j → j < 1 → ([false, false] : List Bool).getD j true = true) ∧
      [false, true] = ([false, false] : List Bool).set 1 true) ∧
    ((seqAcquire 1 (List.replicate 2 false)).isSome ∧
      seqAcquire 2 (List.replicate 2 false) = none) ∧
    (release_slot [false, true] 1).count false =
      ([false, true] : List Bool).count false + 1 :=
  ⟨acquire_slot_accounting.1 [false, false] 1 [false, true] (by decide),
   (acquire_slot_accounting.2.1 2 1 (by decide)).mpr (by decide),
   acquire_slot_accounting.2.2.2 [false, true] 1 (by decide) (by decide)⟩

/-! ## DIS codec primitives and the job-credential decode (`dec_JobCred.c`)

`decode_DIS_JobCred` is in the sources; the DIS primitives `disrui` and
`disrcs` it calls are not, so they are modelled from the spec.  The stream is
a list of bytes. -/

/-- DIS success return code. -/
def DIS_SUCCESS : Nat := 0

/-- Modelled from the spec: the nonzero DIS code for truncated input
("failure on I/O error or stream end signals `Truncated`"). -/
def DIS_EOD : Nat := 1

/-- Modelled from the spec: `read_uint` / `disrui`, a self-delimited unsigned
integer read from the stream.  Concrete self-delimiting encoding: one byte
holding the number of base-256 digits, followed by those digits
least-significant first; stream end mid-value is the truncation failure. -/
def read_uint (s : List Nat) : Except Nat (Nat × List Nat) :=
  match s with
  | [] => .error DIS_EOD
  | n :: rest =>
      if rest.length < n then .error DIS_EOD
      else .ok (Nat.ofDigits 256 (rest.take n), rest.drop n)

/-- Modelled from the spec: `write_uint` / `diswui`, the encoder matching
`read_uint`. -/
def write_uint (v : Nat) : List Nat :=
  (Nat.digits 256 v).length :: Nat.digits 256 v

/-- Modelled from the spec: `read_counted_string` / `disrcs` — a length
prefix (a `read_uint`) followed by exactly that many raw bytes; the buffer is
sized exactly to the prefix, and a prefix exceeding the remaining stream is a
truncation failure. -/
def read_counted_string (s : List Nat) :
    Except Nat (List Nat × List Nat) :=
  match read_uint s with
  | .error e => .error e
  | .ok (len, rest) =>
      if rest.length < len then .error DIS_EOD
      else .ok (rest.take len, rest.drop len)

/-- The job-credential fields of the batch request:
`rq_ind.rq_jobcred.{rq_type, rq_data, rq_size}`; `rq_data = none` models the
NULL pointer. -/
structure JobCredReq where
  rq_type : Nat
  rq_data : Option (List Nat)
  rq_size : Nat
  deriving Repr, DecidableEq

/-- Embedding of `decode_DIS_JobCred` (dec_JobCred.c, lines 82-95).  The
in-out request and the socket stream are explicit: the result is the updated
request, the DIS return code, and the remaining stream.  Line 87 clears
`rq_data` before any read; `disrui` yields 0 as value on failure. -/
def decode_DIS_JobCred (s : List Nat) (preq : JobCredReq) :
    JobCredReq × Nat × List Nat :=
  let preq0 : JobCredReq := { preq with rq_data := none }
  match read_uint s with
  | .error rc => ({ preq0 with rq_type := 0 }, rc, s)
  | .ok (v, rest) =>
      let preq1 : JobCredReq := { preq0 with rq_type := v }
      match read_counted_string rest with
      | .error rc => ({ preq1 with rq_data := none }, rc, rest)
      | .ok (buf, rest') =>
          ({ preq1 with rq_data := some buf, rq_size := buf.length },
            DIS_SUCCESS, rest')

lemma read_write_uint (v : Nat) (rest : List Nat) :
    read_uint (write_uint v ++ rest) = Except.ok (v, rest) := by
  rw [write_uint, List.cons_append, read_uint]
  have hlen : ¬((Nat.digits 256 v ++ rest).length <
      (Nat.digits 256 v).length) := by
    rw [List.length_append]; omega
  rw [if_neg hlen, List.take_left, List.drop_left, Nat.ofDigits_digits]

/-- C7: `decode_DIS_JobCred` reads exactly a credential type (unsigned
integer) then a counted byte string, in that order, with no header decoding:
on a stream carrying type `ct` and a counted string declaring payload length
0, it consumes exactly those two fields, returns `DIS_SUCCESS`, and yields
the empty payload buffer with size 0 — not a decode failure. -/
theorem decode_JobCred_zero_length_payload (ct : Nat) (rest : List Nat)
    (preq : JobCredReq) :
    decode_DIS_JobCred (write_uint ct ++ (write_uint 0 ++ rest)) preq =
      ({ rq_type := ct, rq_data := some [], rq_size := 0 }, DIS_SUCCESS,
        rest) := by
  simp [decode_DIS_JobCred, read_write_uint, read_counted_string.eq_def,
    DIS_SUCCESS]

/-- C9: `decode_DIS_JobCred` clears the credential payload pointer before any
read, so on every stream where reading the credential type fails, it returns
a nonzero error code with the payload pointer null — never stale — whatever
the incoming request held. -/
theorem decode_JobCred_failure_null_payload (s : List Nat) (preq : JobCredReq)
    (rc : Nat) (h : read_uint s = .error rc) :
    (decode_DIS_JobCred s preq).1.rq_data = none ∧
    (decode_DIS_JobCred s preq).2.1 = rc ∧ rc ≠ 0 := by
  have hrc : rc = DIS_EOD := by
    cases s with
    | nil =>
        simp [read_uint, DIS_EOD] at h
        simp [DIS_EOD]
        omega
    | cons n rest =>
        simp only [read_uint] at h
        by_cases hn : rest.length < n
        · simp [hn, DIS_EOD] at h
          simp [DIS_EOD]
          omega
        · simp [hn] at h
  rw [decode_DIS_JobCred, h]
  exact ⟨rfl, rfl, by rw [hrc, DIS_EOD]; omega⟩

/-- Witness for C9 at the empty stream and a request holding a stale
payload pointer. -/
theorem decode_JobCred_failure_null_payload_witness :
    (decode_DIS_JobCred [] { rq_type := 5, rq_data := some [9], rq_size := 3 }).1.rq_data
      = none ∧
    (decode_DIS_JobCred [] { rq_type := 5, rq_data := some [9], rq_size := 3 }).2.1
      = DIS_EOD ∧ DIS_EOD ≠ 0 :=
  decode_JobCred_failure_null_payload []
    { rq_type := 5, rq_data := some [9], rq_size := 3 } DIS_EOD rfl

/-! ## Stage-name parsing (`parse_stage.c`, non-Windows path)

`parse_stage_name(pair, local, host, remote)` parses `local@host:remote`.
Characters are bytes; the C string's terminating NUL is the end of the input
list.  `MAXPATHLEN` and `PBS_MAXSERVERNAME` come from headers not among the
sources, so they are parameters.  Each output buffer is modelled as the list
of bytes written to it, in order, including the terminating 0 written on
success. -/

/-- `isprint` for the C locale: printable ASCII, 0x20..0x7e. -/
def isprintB (c : Nat) : Bool := 32 ≤ c && c ≤ 126

/-- `isspace` for the C locale. -/
def isspaceB (c : Nat) : Bool :=
  c == 32 || c == 9 || c == 10 || c == 11 || c == 12 || c == 13

/-- `ISNAMECHAR` (parse_stage.c line 47): printable or whitespace, not `'@'`. -/
def isNameChar (c : Nat) : Bool := (isprintB c || isspaceB c) && c ≠ 64

/-- `ISNAMECHAR2` (line 48): printable, no whitespace, not `'@'`, not `':'`. -/
def isNameChar2 (c : Nat) : Bool :=
  isprintB c && !isspaceB c && c ≠ 64 && c ≠ 58

/-- One copy loop of `parse_stage_name`: store characters satisfying `pred`
starting at buffer position `pos`, rejecting (second component `false`, the
C `return 1`) when a character is to be stored at a position `≥ bound`.
Returns the stored characters, the success flag, and the rest of the input. -/
def scanPart (bound : Nat) (pred : Nat → Bool) :
    Nat → List Nat → List Nat × Bool × List Nat
  | _, [] => ([], true, [])
  | pos, ch :: rest =>
      if pred ch then
        if bound ≤ pos then ([], false, ch :: rest)
        else
          let r := scanPart bound pred (pos + 1) rest
          (ch :: r.1, r.2.1, r.2.2)
      else ([], true, ch :: rest)

/-- The tail of `parse_stage_name` from the `r_pos == 0` check on
(lines 147-157): reject an empty remote part or leftover input, else write
the terminating NULs and succeed. -/
def finishStage (lw hw rw rest : List Nat) :
    Nat × List Nat × List Nat × List Nat × List Nat :=
  if rw.length = 0 then (1, lw, hw, rw, rest)
  else if rest ≠ [] then (1, lw, hw, rw, rest)
  else (0, lw ++ [0], hw ++ [0], rw ++ [0], [])

/-- The `if (*c == ':')` section of `parse_stage_name` (lines 136-146)
followed by `finishStage`. -/
def parseRemote (maxPath : Nat) (lw hw : List Nat) (r : List Nat) :
    Nat × List Nat × List Nat × List Nat × List Nat :=
  match r with
  | c :: r4 =>
      if c = 58 then
        let R := scanPart maxPath isNameChar 0 r4
        if R.2.1 = false then (1, lw, hw, R.1, R.2.2)
        else finishStage lw hw R.1 R.2.2
      else finishStage lw hw [] (c :: r4)
  | [] => finishStage lw hw [] []

/-- Embedding of `parse_stage_name` (parse_stage.c, lines 69-158, non-Windows
path).  Result: the return code, the bytes written to `local_name`,
`host_name` and `remote_name`, and the unconsumed input. -/
def parse_stage_name (maxPath maxServer : Nat) (pair : List Nat) :
    Nat × List Nat × List Nat × List Nat × List Nat :=
  let s0 := pair.dropWhile isspaceB
  let L := scanPart maxPath isNameChar 0 s0
  if L.2.1 = false then (1, L.1, [], [], L.2.2)
  else if L.1.length = 0 then (1, L.1, [], [], L.2.2)
  else
    match L.2.2 with
    | c :: r2 =>
        if c = 64 then
          let H := scanPart maxServer isNameChar2 0 r2
          if H.2.1 = false then (1, L.1, H.1, [], H.2.2)
          else if H.1.length = 0 then (1, L.1, H.1, [], H.2.2)
          else parseRemote maxPath L.1 H.1 H.2.2
        else parseRemote maxPath L.1 [] (c :: r2)
    | [] => parseRemote maxPath L.1 [] []

/-- The full local part of the input: the maximal `ISNAMECHAR` run after the
leading whitespace. -/
def localPart (pair : List Nat) : List Nat :=
  (pair.dropWhile isspaceB).takeWhile isNameChar

/-- The input remaining after the local part. -/
def afterLocal (pair : List Nat) : List Nat :=
  (pair.dropWhile isspaceB).dropWhile isNameChar

/-- The full host part: the maximal `ISNAMECHAR2` run after an `'@'`. -/
def hostPart (pair : List Nat) : List Nat :=
  match afterLocal pair with
  | c :: r2 => if c = 64 then r2.takeWhile isNameChar2 else []
  | [] => []

/-- The input remaining after the host section. -/
def afterHost (pair : List Nat) : List Nat :=
  match afterLocal pair with
  | c :: r2 => if c = 64 then r2.dropWhile isNameChar2 else c :: r2
  | [] => []

/-- The full remote part: the maximal `ISNAMECHAR` run after a `':'`. -/
def remotePart (pair : List Nat) : List Nat :=
  match afterHost pair with
  | c :: r4 => if c = 58 then r4.takeWhile isNameChar else []
  | [] => []

lemma scanPart_ok (bound : Nat) (pred : Nat → Bool) (cs : List Nat)
    (pos : Nat) (h : pos + (cs.takeWhile pred).length ≤ bound) :
    scanPart bound pred pos cs =
      (cs.takeWhile pred, true, cs.dropWhile pred) := by
  induction cs generalizing pos with
  | nil => simp [scanPart]
  | cons ch rest ih =>
      by_cases hp : pred ch = true
      · have hlen : ((ch :: rest).takeWhile pred).length =
            (rest.takeWhile pred).length + 1 := by
          simp [List.takeWhile_cons, hp]
        rw [hlen] at h
        simp only [scanPart, if_pos hp]
        rw [if_neg (by omega)]
        rw [ih (pos + 1) (by omega)]
        simp [List.takeWhile_cons, List.dropWhile_cons, hp]
      · simp only [Bool.not_eq_true] at hp
        simp [scanPart, hp, List.takeWhile_cons, List.dropWhile_cons]

lemma scanPart_fail (bound : Nat) (pred : Nat → Bool) (cs : List Nat)
    (pos : Nat) (h1 : bound < pos + (cs.takeWhile pred).length)
    (h2 : 0 < (cs.takeWhile pred).length) :
    (scanPart bound pred pos cs).2.1 = false := by
  induction cs generalizing pos with
  | nil => simp at h2
  | cons ch rest ih =>
      by_cases hp : pred ch = true
      · have hlen : ((ch :: rest).takeWhile pred).length =
            (rest.takeWhile pred).length + 1 := by
          simp [List.takeWhile_cons, hp]
        rw [hlen] at h1
        simp only [scanPart, if_pos hp]
        by_cases hb : bound ≤ pos
        · rw [if_pos hb]
        · rw [if_neg hb]
          have hr : 0 < (rest.takeWhile pred).length := by omega
          exact ih (pos + 1) (by omega) hr
      · simp only [Bool.not_eq_true] at hp
        rw [List.takeWhile_cons, hp] at h2
        simp at h2

lemma parse_stage_reject_local (mp ms : Nat) (pair : List Nat)
    (h : mp < (localPart pair).length) :
    (parse_stage_name mp ms pair).1 = 1 := by
  rw [localPart] at h
  have hf := scanPart_fail mp isNameChar (pair.dropWhile isspaceB) 0
    (by omega) (by omega)
  simp [parse_stage_name, hf]

lemma parse_stage_local_empty (mp ms : Nat) (pair : List Nat)
    (h : localPart pair = []) :
    (parse_stage_name mp ms pair).1 = 1 := by
  rw [localPart] at h
  have hok := scanPart_ok mp isNameChar (pair.dropWhile isspaceB) 0
    (by simp [h])
  simp [parse_stage_name, hok, h]

lemma parse_stage_reject_host (mp ms : Nat) (pair : List Nat)
    (h : ms < (hostPart pair).length) :
    (parse_stage_name mp ms pair).1 = 1 := by
  by_cases hA : mp < (localPart pair).length
  · exact parse_stage_reject_local mp ms pair hA
  by_cases hE : localPart pair = []
  · exact parse_stage_local_empty mp ms pair hE
  push_neg at hA
  have hok := scanPart_ok mp isNameChar (pair.dropWhile isspaceB) 0
    (by rw [localPart] at hA; omega)
  have hE' : (pair.dropWhile isspaceB).takeWhile isNameChar ≠ [] := by
    rwa [localPart] at hE
  cases hal : afterLocal pair with
  | nil => exact absurd h (by simp [hostPart, hal])
  | cons c r2 =>
      by_cases hc : c = 64
      · subst hc
        have hh : ms < (r2.takeWhile isNameChar2).length := by
          simpa [hostPart, hal] using h
        have hfH := scanPart_fail ms isNameChar2 r2 0 (by omega) (by omega)
        have halr := hal
        rw [afterLocal] at halr
        simp [parse_stage_name, hok, halr, hfH, hE']
      · exact absurd h (by simp [hostPart, hal, hc])

lemma parse_stage_reject_remote (mp ms : Nat) (pair : List Nat)
    (h : mp < (remotePart pair).length) :
    (parse_stage_name mp ms pair).1 = 1 := by
  by_cases hA : mp < (localPart pair).length
  · exact parse_stage_reject_local mp ms pair hA
  by_cases hE : localPart pair = []
  · exact parse_stage_local_empty mp ms pair hE
  push_neg at hA
  have hok := scanPart_ok mp isNameChar (pair.dropWhile isspaceB) 0
    (by rw [localPart] at hA; omega)
  have hE' : (pair.dropWhile isspaceB).takeWhile isNameChar ≠ [] := by
    rwa [localPart] at hE
  cases hal : afterLocal pair with
  | nil => exact absurd h (by simp [remotePart, afterHost, hal])
  | cons c r2 =>
      have halr := hal
      rw [afterLocal] at halr
      by_cases hc : c = 64
      · subst hc
        by_cases hB : ms < (hostPart pair).length
        · exact parse_stage_reject_host mp ms pair hB
        push_neg at hB
        have hB' : (r2.takeWhile isNameChar2).length ≤ ms := by
          simpa [hostPart, hal] using hB
        have hokH := scanPart_ok ms isNameChar2 r2 0 (by omega)
        by_cases hHE : r2.takeWhile isNameChar2 = []
        · simp [parse_stage_name, hok, halr, hokH, hHE, hE']
        · have hah : afterHost pair = r2.dropWhile isNameChar2 := by
            simp [afterHost, hal]
          cases hah4 : r2.dropWhile isNameChar2 with
          | nil => exact absurd h (by simp [remotePart, hah, hah4])
          | cons c4 r4 =>
              by_cases hc4 : c4 = 58
              · subst hc4
                have hr : mp < (r4.takeWhile isNameChar).length := by
                  simpa [remotePart, hah, hah4] using h
                have hfR := scanPart_fail mp isNameChar r4 0
                  (by omega) (by omega)
                simp [parse_stage_name, hok, halr, hokH, hHE, hE', hah4,
                  parseRemote, hfR]
              · exact absurd h (by simp [remotePart, hah, hah4, hc4])
      · have hah : afterHost pair = c :: r2 := by
          simp [afterHost, hal, hc]
        by_cases hc58 : c = 58
        · subst hc58
          have hr : mp < (r2.takeWhile isNameChar).length := by
            simpa [remotePart, hah] using h
          have hfR := scanPart_fail mp isNameChar r2 0 (by omega) (by omega)
          simp [parse_stage_name, hok, halr, hc, hE', parseRemote, hfR]
        · exact absurd h (by simp [remotePart, hah, hc58])

lemma parseRemote_success (mp : Nat) (lw hw r : List Nat)
    (h : (parseRemote mp lw hw r).1 = 0) :
    ∃ r4, r = 58 :: r4 ∧
      r4.takeWhile isNameChar ≠ [] ∧
      (r4.takeWhile isNameChar).length ≤ mp ∧
      r4.dropWhile isNameChar = [] ∧
      parseRemote mp lw hw r =
        (0, lw ++ [0], hw ++ [0], r4.takeWhile isNameChar ++ [0], []) := by
  cases r with
  | nil =>
      have : (parseRemote mp lw hw []).1 = 1 := by
        simp [parseRemote, finishStage]
      omega
  | cons c r4 =>
      by_cases hc : c = 58
      · subst hc
        by_cases hf : mp < (r4.takeWhile isNameChar).length
        · have hfR := scanPart_fail mp isNameChar r4 0 (by omega) (by omega)
          have : (parseRemote mp lw hw (58 :: r4)).1 = 1 := by
            simp [parseRemote, hfR]
          omega
        · push_neg at hf
          have hokR := scanPart_ok mp isNameChar r4 0 (by omega)
          by_cases hre : r4.takeWhile isNameChar = []
          · have : (parseRemote mp lw hw (58 :: r4)).1 = 1 := by
              simp [parseRemote, hokR, finishStage, hre]
            omega
          · by_cases hrest : r4.dropWhile isNameChar = []
            · exact ⟨r4, rfl, hre, hf, hrest,
                by simp [parseRemote, hokR, finishStage, hre, hrest]⟩
            · have : (parseRemote mp lw hw (58 :: r4)).1 = 1 := by
                simp [parseRemote, hokR, finishStage, hre, hrest]
              omega
      · have : (parseRemote mp lw hw (c :: r4)).1 = 1 := by
          simp [parseRemote, hc, finishStage]
        omega

lemma parse_stage_success (mp ms : Nat) (pair : List Nat)
    (h : (parse_stage_name mp ms pair).1 = 0) :
    (parse_stage_name mp ms pair).2.1 = localPart pair ++ [0] ∧
    (parse_stage_name mp ms pair).2.2.1 = hostPart pair ++ [0] ∧
    (parse_stage_name mp ms pair).2.2.2.1 = remotePart pair ++ [0] ∧
    localPart pair ≠ [] ∧ remotePart pair ≠ [] ∧
    (localPart pair).length ≤ mp ∧ (hostPart pair).length ≤ ms ∧
    (remotePart pair).length ≤ mp ∧
    (parse_stage_name mp ms pair).2.2.2.2 = [] := by
  by_cases hA : mp < (localPart pair).length
  · have := parse_stage_reject_local mp ms pair hA; omega
  by_cases hE : localPart pair = []
  · have := parse_stage_local_empty mp ms pair hE; omega
  push_neg at hA
  have hok := scanPart_ok mp isNameChar (pair.dropWhile isspaceB) 0
    (by rw [localPart] at hA; omega)
  have hE' : (pair.dropWhile isspaceB).takeWhile isNameChar ≠ [] := by
    rwa [localPart] at hE
  cases hal : afterLocal pair with
  | nil =>
      have halr := hal
      rw [afterLocal] at halr
      have h1 : (parse_stage_name mp ms pair).1 = 1 := by
        simp [parse_stage_name, hok, halr, parseRemote, finishStage, hE']
      omega
  | cons c r2 =>
      have halr := hal
      rw [afterLocal] at halr
      by_cases hc : c = 64
      · subst hc
        by_cases hB : ms < (hostPart pair).length
        · have := parse_stage_reject_host mp ms pair hB; omega
        push_neg at hB
        have hB' : (r2.takeWhile isNameChar2).length ≤ ms := by
          simpa [hostPart, hal] using hB
        have hokH := scanPart_ok ms isNameChar2 r2 0 (by omega)
        by_cases hHE : r2.takeWhile isNameChar2 = []
        · have h1 : (parse_stage_name mp ms pair).1 = 1 := by
            simp [parse_stage_name, hok, halr, hokH, hHE, hE']
          omega
        · have hPeq : parse_stage_name mp ms pair =
              parseRemote mp ((pair.dropWhile isspaceB).takeWhile isNameChar)
                (r2.takeWhile isNameChar2) (r2.dropWhile isNameChar2) := by
            simp [parse_stage_name, hok, halr, hokH, hHE, hE']
          have hah : afterHost pair = r2.dropWhile isNameChar2 := by
            simp [afterHost, hal]
          have hhp : hostPart pair = r2.takeWhile isNameChar2 := by
            simp [hostPart, hal]
          obtain ⟨r4, hr4, hne, hlen, hcons, heq⟩ :=
            parseRemote_success mp _ _ _ (by rw [hPeq] at h; exact h)
          have hah4 : afterHost pair = 58 :: r4 := by rw [hah, hr4]
          have hrp : remotePart pair = r4.takeWhile isNameChar := by
            simp [remotePart, hah4]
          rw [hPeq, heq]
          refine ⟨by rw [localPart], by rw [hhp], by rw [hrp], hE, ?_, hA,
            by rw [hhp]; exact hB', by rw [hrp]; exact hlen, rfl⟩
          rw [hrp]; exact hne
      · have hah : afterHost pair = c :: r2 := by
          simp [afterHost, hal, hc]
        have hhp : hostPart pair = [] := by
          simp [hostPart, hal, hc]
        have hPeq : parse_stage_name mp ms pair =
            parseRemote mp ((pair.dropWhile isspaceB).takeWhile isNameChar)
              [] (c :: r2) := by
          simp [parse_stage_name, hok, halr, hc, hE']
        obtain ⟨r4, hr4, hne, hlen, hcons, heq⟩ :=
          parseRemote_success mp _ _ _ (by rw [hPeq] at h; exact h)
        have hah4 : afterHost pair = 58 :: r4 := by rw [hah, hr4]
        have hrp : remotePart pair = r4.takeWhile isNameChar := by
          simp [remotePart, hah4]
        rw [hPeq, heq]
        refine ⟨by rw [localPart], by rw [hhp], by rw [hrp], hE, ?_, hA,
          by rw [hhp]; simp, by rw [hrp]; exact hlen, rfl⟩
        rw [hrp]; exact hne

/-- C10: `parse_stage_name` rejects (returns 1) rather than truncates
whenever the local part, the host part or the remote part of the input would
overrun its buffer bound (`MAXPATHLEN`, `PBS_MAXSERVERNAME`, `MAXPATHLEN`
respectively — the index check fires as a part reaches its bound with a
further character to store); and whenever it returns 0, the three output
buffers hold exactly the full corresponding input parts (never a truncated
prefix), each null-terminated, with the local and remote parts non-empty,
each part within its bound, and the entire input consumed. -/
theorem parse_stage_name_bounds_and_success (mp ms : Nat) (pair : List Nat) :
    (mp < (localPart pair).length → (parse_stage_name mp ms pair).1 = 1) ∧
    (ms < (hostPart pair).length → (parse_stage_name mp ms pair).1 = 1) ∧
    (mp < (remotePart pair).length → (parse_stage_name mp ms pair).1 = 1) ∧
    ((parse_stage_name mp ms pair).1 = 0 →
      (parse_stage_name mp ms pair).2.1 = localPart pair ++ [0] ∧
      (parse_stage_name mp ms pair).2.2.1 = hostPart pair ++ [0] ∧
      (parse_stage_name mp ms pair).2.2.2.1 = remotePart pair ++ [0] ∧
      localPart pair ≠ [] ∧ remotePart pair ≠ [] ∧
      (localPart pair).length ≤ mp ∧ (hostPart pair).length ≤ ms ∧
      (remotePart pair).length ≤ mp ∧
      (parse_stage_name mp ms pair).2.2.2.2 = []) :=
  ⟨parse_stage_reject_local mp ms pair,
   parse_stage_reject_host mp ms pair,
   parse_stage_reject_remote mp ms pair,
   parse_stage_success mp ms pair⟩

/-- Witness for C10: a concrete successful parse of `"a@h:r"` under bounds
8 and 8, via the theorem's success branch. -/
theorem parse_stage_name_bounds_and_success_witness :
    (parse_stage_name 8 8 [97, 64, 104, 58, 114]).1 = 0 ∧
    ((parse_stage_name 8 8 [97, 64, 104, 58, 114]).2.1 =
        localPart [97, 64, 104, 58, 114] ++ [0] ∧
      (parse_stage_name 8 8 [97, 64, 104, 58, 114]).2.2.1 =
        hostPart [97, 64, 104, 58, 114] ++ [0] ∧
      (parse_stage_name 8 8 [97, 64, 104, 58, 114]).2.2.2.1 =
        remotePart [97, 64, 104, 58, 114] ++ [0] ∧
      localPart [97, 64, 104, 58, 114] ≠ [] ∧
      remotePart [97, 64, 104, 58, 114] ≠ [] ∧
      (localPart [97, 64, 104, 58, 114]).length ≤ 8 ∧
      (hostPart [97, 64, 104, 58, 114]).length ≤ 8 ∧
      (remotePart [97, 64, 104, 58, 114]).length ≤ 8 ∧
      (parse_stage_name 8 8 [97, 64, 104, 58, 114]).2.2.2.2 = []) :=
  ⟨by decide,
   (parse_stage_name_bounds_and_success 8 8 [97, 64, 104, 58, 114]).2.2.2
     (by decide)⟩

end PBS
